import Mathlib

/-!
Verification of the `data` package of the cirrus CloudFormation watcher.

The Go source is shallowly embedded: AWS SDK string enums become `String`
abbreviations with named constants carrying the SDK wire values, Go pointer
fields (`*string`, `*time.Time`) become `Option` fields, a nil-pointer
dereference (a Go panic) becomes `Option.none` as the result of the
dereferencing function, Go maps (`map[string]DisplayRow`) become association
lists built left to right by an insert-or-replace operation, and `for` loops
become structural recursions carrying the loop accumulator.
-/

namespace Cirrus

/-- AWS SDK `cloudformation.ResourceStatus`, a string-typed enum. -/
abbrev ResourceStatus := String

/-- AWS SDK `cloudformation.StackStatus`, a string-typed enum. -/
abbrev StackStatus := String

/-- AWS SDK `cloudformation.ChangeAction`, a string-typed enum. -/
abbrev ChangeAction := String

/-- AWS SDK `cloudformation.Replacement`, a string-typed enum. -/
abbrev Replacement := String

/-- Source of a display row (`DisplayRowSource` in the Go source). -/
abbrev DisplayRowSource := String

def ResourceStatusCreateInProgress : ResourceStatus := "CREATE_IN_PROGRESS"

def ResourceStatusCreateFailed : ResourceStatus := "CREATE_FAILED"

def ResourceStatusCreateComplete : ResourceStatus := "CREATE_COMPLETE"

def ResourceStatusDeleteInProgress : ResourceStatus := "DELETE_IN_PROGRESS"

def ResourceStatusDeleteFailed : ResourceStatus := "DELETE_FAILED"

def ResourceStatusDeleteComplete : ResourceStatus := "DELETE_COMPLETE"

def ResourceStatusUpdateInProgress : ResourceStatus := "UPDATE_IN_PROGRESS"

def ResourceStatusUpdateFailed : ResourceStatus := "UPDATE_FAILED"

def ResourceStatusUpdateComplete : ResourceStatus := "UPDATE_COMPLETE"

def StackStatusCreateInProgress : StackStatus := "CREATE_IN_PROGRESS"

def StackStatusCreateFailed : StackStatus := "CREATE_FAILED"

def StackStatusCreateComplete : StackStatus := "CREATE_COMPLETE"

def StackStatusRollbackInProgress : StackStatus := "ROLLBACK_IN_PROGRESS"

def StackStatusRollbackFailed : StackStatus := "ROLLBACK_FAILED"

def StackStatusRollbackComplete : StackStatus := "ROLLBACK_COMPLETE"

def StackStatusDeleteInProgress : StackStatus := "DELETE_IN_PROGRESS"

def StackStatusDeleteFailed : StackStatus := "DELETE_FAILED"

def StackStatusDeleteComplete : StackStatus := "DELETE_COMPLETE"

def StackStatusUpdateInProgress : StackStatus := "UPDATE_IN_PROGRESS"

def StackStatusUpdateCompleteCleanupInProgress : StackStatus :=
  "UPDATE_COMPLETE_CLEANUP_IN_PROGRESS"

def StackStatusUpdateComplete : StackStatus := "UPDATE_COMPLETE"

def StackStatusUpdateRollbackInProgress : StackStatus := "UPDATE_ROLLBACK_IN_PROGRESS"

def StackStatusUpdateRollbackFailed : StackStatus := "UPDATE_ROLLBACK_FAILED"

def StackStatusUpdateRollbackCompleteCleanupInProgress : StackStatus :=
  "UPDATE_ROLLBACK_COMPLETE_CLEANUP_IN_PROGRESS"

def StackStatusUpdateRollbackComplete : StackStatus := "UPDATE_ROLLBACK_COMPLETE"

def StackStatusReviewInProgress : StackStatus := "REVIEW_IN_PROGRESS"

def ChangeActionAdd : ChangeAction := "Add"

def ChangeActionModify : ChangeAction := "Modify"

def ChangeActionRemove : ChangeAction := "Remove"

/-- `DisplayRowSourceChangeSet` indicates a display row came from a Change Set. -/
def DisplayRowSourceChangeSet : DisplayRowSource := "change"

/-- `DisplayRowSourceEvent` indicates a display row came from an Event. -/
def DisplayRowSourceEvent : DisplayRowSource := "event"

/-- `CloudformationStackResource` is the string that represents a
CloudFormation stack in a template. -/
def CloudformationStackResource : String := "AWS::CloudFormation::Stack"

/-- `DisplayRow` is a normalized data structure to store change/event data to
display.  Field defaults are the Go zero values (empty string, zero time,
`false`); `Timestamp` models `time.Time` as an instant count. -/
structure DisplayRow where
  LogicalResourceID : String := ""
  ResourceType : String := ""
  Status : ResourceStatus := ""
  Timestamp : Nat := 0
  StatusReason : String := ""
  Replacement : Replacement := ""
  Action : ChangeAction := ""
  Source : DisplayRowSource := ""
  Active : Bool := false
  deriving Repr, DecidableEq

/-- `StackInfo` is a normalized data structure to store identifier properties
of a stack/change set. -/
structure StackInfo where
  StackID : String
  ChangeSetName : String
  StackName : String
  deriving Repr, DecidableEq

/-- AWS SDK `cloudformation.ResourceChange`; pointer-typed fields that the
source dereferences are `Option`s. -/
structure ResourceChange where
  LogicalResourceId : Option String
  ResourceType : Option String
  Replacement : Replacement := ""
  Action : ChangeAction := ""
  deriving Repr, DecidableEq

/-- AWS SDK `cloudformation.Change`. -/
structure Change where
  ResourceChange : ResourceChange
  deriving Repr, DecidableEq

/-- AWS SDK `cloudformation.StackEvent`; pointer-typed fields that the source
dereferences are `Option`s. -/
structure StackEvent where
  LogicalResourceId : Option String
  ResourceType : Option String
  ResourceStatus : ResourceStatus := ""
  Timestamp : Option Nat
  deriving Repr, DecidableEq

/-- AWS SDK `cloudformation.StackResourceSummary`; pointer-typed fields that
the source dereferences are `Option`s. -/
structure StackResourceSummary where
  LogicalResourceId : Option String
  ResourceType : Option String
  deriving Repr, DecidableEq

/-- PositiveEventStatus indicates positive event statuses. -/
def PositiveEventStatus : List ResourceStatus :=
  [ResourceStatusCreateComplete,
   ResourceStatusDeleteComplete,
   ResourceStatusUpdateComplete]

/-- NegativeEventStatus indicates negative event statuses. -/
def NegativeEventStatus : List ResourceStatus :=
  [ResourceStatusCreateFailed,
   ResourceStatusDeleteFailed,
   ResourceStatusUpdateFailed]

/-- PendingEventStatus indicates an event status that is in a pending state. -/
def PendingEventStatus : List ResourceStatus :=
  [ResourceStatusCreateInProgress,
   ResourceStatusDeleteInProgress,
   ResourceStatusUpdateInProgress]

/-- PositiveStackStatus indicates a stack is in a positive terminal state. -/
def PositiveStackStatus : List StackStatus :=
  [StackStatusCreateComplete,
   StackStatusDeleteComplete,
   StackStatusUpdateComplete,
   StackStatusRollbackComplete]

/-- NegativeStackStatus indicates a stack is in a negative terminal state. -/
def NegativeStackStatus : List StackStatus :=
  [StackStatusCreateFailed,
   StackStatusDeleteFailed,
   StackStatusUpdateRollbackComplete,
   StackStatusUpdateRollbackFailed,
   StackStatusRollbackFailed]

/-- PendingStackStatus indicates a stack is not yet in a terminal state. -/
def PendingStackStatus : List StackStatus :=
  [StackStatusCreateInProgress,
   StackStatusDeleteInProgress,
   StackStatusUpdateInProgress,
   StackStatusReviewInProgress,
   StackStatusUpdateRollbackInProgress,
   StackStatusRollbackInProgress,
   StackStatusUpdateCompleteCleanupInProgress,
   StackStatusUpdateRollbackCompleteCleanupInProgress]

/-- RollbackStackStatus indicates a stack is rolling back. -/
def RollbackStackStatus : List StackStatus :=
  [StackStatusRollbackInProgress]

/-- The nine resource statuses of the Create/Delete/Update by
Complete/Failed/InProgress grid, used to state totality of the event-status
classification. -/
def EventStatusGrid : List ResourceStatus :=
  [ResourceStatusCreateComplete, ResourceStatusCreateFailed,
   ResourceStatusCreateInProgress,
   ResourceStatusDeleteComplete, ResourceStatusDeleteFailed,
   ResourceStatusDeleteInProgress,
   ResourceStatusUpdateComplete, ResourceStatusUpdateFailed,
   ResourceStatusUpdateInProgress]

/-- A Go `map[string]DisplayRow`, modelled as an association list whose keys
are kept unique by `goMapInsert`. -/
abbrev GoMap (α : Type) := List (String × α)

/-- Go map update `m[k] = v`: replace the entry for `k` if present, append
otherwise. -/
def goMapInsert {α : Type} : GoMap α → String → α → GoMap α
  | [], k, v => [(k, v)]
  | (k2, v2) :: rest, k, v =>
    if k2 = k then (k, v) :: rest else (k2, v2) :: goMapInsert rest k v

/-- Go map lookup `m[k]`, as an `Option`. -/
def goMapFind {α : Type} : GoMap α → String → Option α
  | [], _ => none
  | (k2, v) :: rest, k => if k2 = k then some v else goMapFind rest k

/-- CreateDisplayRowFromChange normalizes a cloudformation change into a
display row.  A nil logical id or resource type is a panicking dereference in
the source, modelled as `none`. -/
def CreateDisplayRowFromChange (change : Change) (active : Bool) :
    Option DisplayRow :=
  match change.ResourceChange.LogicalResourceId,
        change.ResourceChange.ResourceType with
  | some lid, some rtype =>
    some { LogicalResourceID := lid
           ResourceType := rtype
           Replacement := change.ResourceChange.Replacement
           Action := change.ResourceChange.Action
           Source := DisplayRowSourceChangeSet
           Active := active }
  | _, _ => none

/-- Loop body of `ChangeMap`: `for _, change := range changes`, writing
`mapChanges[*change.ResourceChange.LogicalResourceId] =
CreateDisplayRowFromChange(change, active)`. -/
def changeMapLoop (active : Bool) :
    List Change → GoMap DisplayRow → Option (GoMap DisplayRow)
  | [], mapChanges => some mapChanges
  | change :: rest, mapChanges =>
    match change.ResourceChange.LogicalResourceId,
          CreateDisplayRowFromChange change active with
    | some key, some row => changeMapLoop active rest (goMapInsert mapChanges key row)
    | _, _ => none

/-- ChangeMap normalizes a slice of changes into a map of DisplayRows. -/
def ChangeMap (changes : List Change) (active : Bool) :
    Option (GoMap DisplayRow) :=
  changeMapLoop active changes []

/-- CreateDisplayRowFromEvent normalizes a cloudformation event into a display
row. -/
def CreateDisplayRowFromEvent (event : StackEvent) : Option DisplayRow :=
  match event.LogicalResourceId, event.ResourceType, event.Timestamp with
  | some lid, some rtype, some ts =>
    some { LogicalResourceID := lid
           ResourceType := rtype
           Status := event.ResourceStatus
           Timestamp := ts
           Source := DisplayRowSourceEvent }
  | _, _, _ => none

/-- Loop body of `EventMap`. -/
def eventMapLoop :
    List StackEvent → GoMap DisplayRow → Option (GoMap DisplayRow)
  | [], mapEvents => some mapEvents
  | event :: rest, mapEvents =>
    match event.LogicalResourceId, CreateDisplayRowFromEvent event with
    | some key, some row => eventMapLoop rest (goMapInsert mapEvents key row)
    | _, _ => none

/-- EventMap normalizes a slice of changes into a map of DisplayRows. -/
def EventMap (events : List StackEvent) : Option (GoMap DisplayRow) :=
  eventMapLoop events []

/-- CreateDisplayRowFromResource normalizes a resource summary into a
DisplayRow. -/
def CreateDisplayRowFromResource (resource : StackResourceSummary) :
    Option DisplayRow :=
  match resource.LogicalResourceId, resource.ResourceType with
  | some lid, some rtype =>
    some { LogicalResourceID := lid
           Action := ChangeActionRemove
           ResourceType := rtype }
  | _, _ => none

/-- Loop body of `ResourceMap`. -/
def resourceMapLoop :
    List StackResourceSummary → GoMap DisplayRow → Option (GoMap DisplayRow)
  | [], mapResources => some mapResources
  | resource :: rest, mapResources =>
    match resource.LogicalResourceId, CreateDisplayRowFromResource resource with
    | some key, some row => resourceMapLoop rest (goMapInsert mapResources key row)
    | _, _ => none

/-- ResourceMap normalizes a slice of resource summaries into a map of
DisplayRows. -/
def ResourceMap (resources : List StackResourceSummary) :
    Option (GoMap DisplayRow) :=
  resourceMapLoop resources []

/-- Loop body of `ActivateDisplayRows`: for each entry, set the `Active` flag
on the iteration copy and insert it into the fresh output map. -/
def activateDisplayRowsLoop :
    GoMap DisplayRow → GoMap DisplayRow → GoMap DisplayRow
  | [], activatedDisplayRows => activatedDisplayRows
  | (logicalID, event) :: rest, activatedDisplayRows =>
    activateDisplayRowsLoop rest
      (goMapInsert activatedDisplayRows logicalID { event with Active := true })

/-- ActivateDisplayRows iterates through a display row map and sets the active
flag to true, building a fresh map. -/
def ActivateDisplayRows (displayRows : GoMap DisplayRow) : GoMap DisplayRow :=
  activateDisplayRowsLoop displayRows []

/-- One interaction with a `ListStackResourcesPaginator`: `Next` either yields
a page of stack resource summaries or fails.  The source never consults
`paginator.Err()`; in both the exhausted and the failed case `Next` returns
`false` and the loop stops. -/
inductive PaginatorStep where
  | page (summaries : List StackResourceSummary)
  | fetchFailure
  deriving Repr, DecidableEq

/-- Loop of `GetResourcesFromPaginator`: `for paginator.Next(...)` appends the
current page; a failed `Next` simply ends the loop. -/
def getResourcesLoop :
    List PaginatorStep → List StackResourceSummary → List StackResourceSummary
  | [], resources => resources
  | PaginatorStep.page summaries :: rest, resources =>
    getResourcesLoop rest (resources ++ summaries)
  | PaginatorStep.fetchFailure :: _, resources => resources

/-- GetResourcesFromPaginator takes a ListStackResourcesPaginator and returns
a list of StackResourceSummaries. -/
def GetResourcesFromPaginator (paginator : List PaginatorStep) :
    List StackResourceSummary :=
  getResourcesLoop paginator []

/-- The Pagination Collector behavior the spec describes, for refinement
comparison only: transient fetch errors propagate to the caller (`none`),
otherwise the exhaustive accumulation is returned. -/
def GetResourcesFromPaginatorSpec :
    List PaginatorStep → Option (List StackResourceSummary)
  | [] => some []
  | PaginatorStep.page summaries :: rest =>
    (GetResourcesFromPaginatorSpec rest).map (fun acc => summaries ++ acc)
  | PaginatorStep.fetchFailure :: _ => none

/-- AWS SDK `cloudformation.Tag`. -/
structure Tag where
  Key : Option String
  Value : Option String
  deriving Repr, DecidableEq

/-- AWS SDK `cloudformation.Parameter`. -/
structure Parameter where
  ParameterKey : Option String
  ParameterValue : Option String
  deriving Repr, DecidableEq

/-- Failure modes of `ioutil.ReadFile`; the source treats them all alike. -/
inductive ReadError where
  | notExist
  | permissionDenied
  | otherFailure
  deriving Repr, DecidableEq

/-- File bytes as seen by `json.Unmarshal` with target type `α`: either they
fail to unmarshal, or they denote a value of `α`. -/
inductive JSONBytes (α : Type) where
  | invalid
  | valid (value : α)
  deriving Repr, DecidableEq

/-- `json.Unmarshal` (standard library, external to the repo): `none` is a
parse error. -/
def jsonUnmarshal {α : Type} : JSONBytes α → Option α
  | JSONBytes.invalid => none
  | JSONBytes.valid value => some value

/-- Modelled from the spec: the `colors` package (colorized terminal
rendering) is an excluded collaborator (spec section 1) and is not under
`src/`; it only affects presentation, so `colors.Error` is modelled as
returning its message text. -/
def colorsError (s : String) : String := s

/-- Modelled from the spec: `colors.Docs` of the excluded `colors` package,
modelled as returning its message text (see `colorsError`). -/
def colorsDocs (s : String) : String := s

def tagsInvalidJSON : String :=
  "Unable to load tags. tags must be valid JSON and only of type string"

def tagsDocsMessage : String :=
  "https://docs.aws.amazon.com/AWSCloudFormation/latest/UserGuide/aws-properties-resource-tags.html"

/-- `fmt.Sprintf("%s \n %s", colors.Error(invalidJSON), colors.Docs(docsMessage))`. -/
def tagsErrorMessage : String :=
  colorsError tagsInvalidJSON ++ " \n " ++ colorsDocs tagsDocsMessage

/-- GetTags gets the tags from the location provided.  If tags don't exist,
return an empty tag slice.  The file system is passed explicitly:
`fs location` is the result of `ioutil.ReadFile(location)`. -/
def GetTags (fs : String → Except ReadError (JSONBytes (List Tag)))
    (location : String) : Except String (List Tag) :=
  match fs location with
  | Except.error _ => Except.ok []
  | Except.ok bytes =>
    match jsonUnmarshal bytes with
    | none => Except.error tagsErrorMessage
    | some container => Except.ok container

def parametersInvalidJSON : String :=
  "Unable to load parameters. Parameters must be valid JSON and only of type string"

def parametersDocsMessage : String :=
  "https://aws.amazon.com/blogs/devops/passing-parameters-to-cloudformation-stacks-with-the-aws-cli-and-powershell/"

/-- `fmt.Sprintf("%s \n %s", colors.Error(invalidJSON), colors.Docs(docsMessage))`. -/
def parametersErrorMessage : String :=
  colorsError parametersInvalidJSON ++ " \n " ++ colorsDocs parametersDocsMessage

/-- GetParameters gets the parameters from the location provided, with the
same shape as `GetTags`. -/
def GetParameters (fs : String → Except ReadError (JSONBytes (List Parameter)))
    (location : String) : Except String (List Parameter) :=
  match fs location with
  | Except.error _ => Except.ok []
  | Except.ok bytes =>
    match jsonUnmarshal bytes with
    | none => Except.error parametersErrorMessage
    | some container => Except.ok container

/-- Modelled from the spec: the Lifecycle Poller (spec section 4.5) is not
under `src/`; its termination rule is "stop polling when the current stack
status is in Positive or Negative". -/
def terminatesPolling (s : StackStatus) : Bool :=
  PositiveStackStatus.contains s || NegativeStackStatus.contains s

theorem goMapFind_goMapInsert {α : Type} (m : GoMap α) (k k2 : String) (v : α) :
    goMapFind (goMapInsert m k v) k2 = if k = k2 then some v else goMapFind m k2 := by
  induction m with
  | nil => simp [goMapInsert, goMapFind]
  | cons p rest ih =>
    obtain ⟨k3, v3⟩ := p
    by_cases h3 : k3 = k
    · subst h3
      simp only [goMapInsert, if_pos rfl, goMapFind]
      by_cases hk : k3 = k2 <;> simp [hk]
    · simp only [goMapInsert, if_neg h3, goMapFind, ih]
      by_cases hk : k3 = k2
      · subst hk
        have : ¬k = k3 := fun h => h3 h.symm
        simp [this]
      · simp [hk]

theorem goMapFind_isSome_iff_mem {α : Type} (m : GoMap α) (k : String) :
    (goMapFind m k).isSome ↔ k ∈ m.map Prod.fst := by
  induction m with
  | nil => simp [goMapFind]
  | cons p rest ih =>
    obtain ⟨k2, v⟩ := p
    by_cases h : k2 = k
    · subst h
      simp [goMapFind]
    · have h2 : ¬k = k2 := fun hh => h hh.symm
      simp [goMapFind, h, h2, ih]

theorem activateDisplayRowsLoop_find (l acc : GoMap DisplayRow) (k : String)
    (h : (l.map Prod.fst).Nodup) :
    goMapFind (activateDisplayRowsLoop l acc) k =
      match goMapFind l k with
      | some r => some { r with Active := true }
      | none => goMapFind acc k := by
  induction l generalizing acc with
  | nil => simp [activateDisplayRowsLoop, goMapFind]
  | cons p rest ih =>
    obtain ⟨k2, row⟩ := p
    simp only [List.map_cons, List.nodup_cons] at h
    obtain ⟨hnotmem, hnodup⟩ := h
    simp only [activateDisplayRowsLoop]
    rw [ih _ hnodup]
    by_cases hk : k2 = k
    · subst hk
      have hrest : goMapFind rest k2 = none := by
        rcases hfind : goMapFind rest k2 with _ | r
        · rfl
        · exact absurd ((goMapFind_isSome_iff_mem rest k2).mp (by simp [hfind]))
            hnotmem
      simp [goMapFind, hrest, goMapFind_goMapInsert]
    · simp only [goMapFind, if_neg hk]
      rcases hfind : goMapFind rest k with _ | r
      · simp [goMapFind_goMapInsert, hk]
      · rfl

theorem changeMapLoop_conv_isSome (active : Bool) (cs : List Change)
    (acc m : GoMap DisplayRow) (h : changeMapLoop active cs acc = some m) :
    ∀ c ∈ cs, (CreateDisplayRowFromChange c active).isSome := by
  induction cs generalizing acc with
  | nil => simp
  | cons c rest ih =>
    simp only [changeMapLoop] at h
    split at h
    · rename_i key row hid hrow
      intro c2 hc2
      rcases List.mem_cons.mp hc2 with hc2 | hc2
      · subst hc2
        simp [hrow]
      · exact ih _ h c2 hc2
    · exact Option.noConfusion h

theorem changeMapLoop_find (active : Bool) (cs : List Change)
    (acc m : GoMap DisplayRow) (h : changeMapLoop active cs acc = some m)
    (k : String) :
    goMapFind m k =
      match cs.reverse.find?
          (fun c => decide (c.ResourceChange.LogicalResourceId = some k)) with
      | some c => CreateDisplayRowFromChange c active
      | none => goMapFind acc k := by
  induction cs generalizing acc with
  | nil =>
    simp only [changeMapLoop, Option.some.injEq] at h
    subst h
    simp
  | cons c rest ih =>
    simp only [changeMapLoop] at h
    split at h
    · rename_i key row hid hrow
      rw [ih _ h]
      simp only [List.reverse_cons, List.find?_append]
      rcases hfound : List.find?
          (fun c => decide (c.ResourceChange.LogicalResourceId = some k))
          rest.reverse with _ | c2
      · rw [hfound]
        by_cases hk : key = k
        · subst hk
          simp [hid, hrow, goMapFind_goMapInsert]
        · simp [hid, hk, goMapFind_goMapInsert]
      · rw [hfound]
        simp
    · exact Option.noConfusion h

theorem eventMapLoop_conv_isSome (events : List StackEvent)
    (acc m : GoMap DisplayRow) (h : eventMapLoop events acc = some m) :
    ∀ e ∈ events, (CreateDisplayRowFromEvent e).isSome := by
  induction events generalizing acc with
  | nil => simp
  | cons e rest ih =>
    simp only [eventMapLoop] at h
    split at h
    · rename_i key row hid hrow
      intro e2 he2
      rcases List.mem_cons.mp he2 with he2 | he2
      · subst he2
        simp [hrow]
      · exact ih _ h e2 he2
    · exact Option.noConfusion h

theorem eventMapLoop_find (events : List StackEvent)
    (acc m : GoMap DisplayRow) (h : eventMapLoop events acc = some m)
    (k : String) :
    goMapFind m k =
      match events.reverse.find?
          (fun e => decide (e.LogicalResourceId = some k)) with
      | some e => CreateDisplayRowFromEvent e
      | none => goMapFind acc k := by
  induction events generalizing acc with
  | nil =>
    simp only [eventMapLoop, Option.some.injEq] at h
    subst h
    simp
  | cons e rest ih =>
    simp only [eventMapLoop] at h
    split at h
    · rename_i key row hid hrow
      rw [ih _ h]
      simp only [List.reverse_cons, List.find?_append]
      rcases hfound : List.find?
          (fun e => decide (e.LogicalResourceId = some k))
          rest.reverse with _ | e2
      · rw [hfound]
        by_cases hk : key = k
        · subst hk
          simp [hid, hrow, goMapFind_goMapInsert]
        · simp [hid, hk, goMapFind_goMapInsert]
      · rw [hfound]
        simp
    · exact Option.noConfusion h

theorem resourceMapLoop_conv_isSome (resources : List StackResourceSummary)
    (acc m : GoMap DisplayRow) (h : resourceMapLoop resources acc = some m) :
    ∀ r ∈ resources, (CreateDisplayRowFromResource r).isSome := by
  induction resources generalizing acc with
  | nil => simp
  | cons r rest ih =>
    simp only [resourceMapLoop] at h
    split at h
    · rename_i key row hid hrow
      intro r2 hr2
      rcases List.mem_cons.mp hr2 with hr2 | hr2
      · subst hr2
        simp [hrow]
      · exact ih _ h r2 hr2
    · exact Option.noConfusion h

theorem resourceMapLoop_find (resources : List StackResourceSummary)
    (acc m : GoMap DisplayRow) (h : resourceMapLoop resources acc = some m)
    (k : String) :
    goMapFind m k =
      match resources.reverse.find?
          (fun r => decide (r.LogicalResourceId = some k)) with
      | some r => CreateDisplayRowFromResource r
      | none => goMapFind acc k := by
  induction resources generalizing acc with
  | nil =>
    simp only [resourceMapLoop, Option.some.injEq] at h
    subst h
    simp
  | cons r rest ih =>
    simp only [resourceMapLoop] at h
    split at h
    · rename_i key row hid hrow
      rw [ih _ h]
      simp only [List.reverse_cons, List.find?_append]
      rcases hfound : List.find?
          (fun r => decide (r.LogicalResourceId = some k))
          rest.reverse with _ | r2
      · rw [hfound]
        by_cases hk : key = k
        · subst hk
          simp [hid, hrow, goMapFind_goMapInsert]
        · simp [hid, hk, goMapFind_goMapInsert]
      · rw [hfound]
        simp
    · exact Option.noConfusion h

/-- C6: The three resource-level status sets `PositiveEventStatus`,
`NegativeEventStatus`, and `PendingEventStatus` form a total, pairwise
disjoint partition of the nine Create/Delete/Update by
Complete/Failed/InProgress resource statuses; no status is in two sets, and
each set is exactly the Create/Delete/Update triple of its variant. -/
theorem eventStatus_partition :
    (∀ s ∈ PositiveEventStatus, s ∉ NegativeEventStatus ∧ s ∉ PendingEventStatus)
    ∧ (∀ s ∈ NegativeEventStatus, s ∉ PositiveEventStatus ∧ s ∉ PendingEventStatus)
    ∧ (∀ s ∈ PendingEventStatus, s ∉ PositiveEventStatus ∧ s ∉ NegativeEventStatus)
    ∧ PositiveEventStatus = [ResourceStatusCreateComplete,
        ResourceStatusDeleteComplete, ResourceStatusUpdateComplete]
    ∧ NegativeEventStatus = [ResourceStatusCreateFailed,
        ResourceStatusDeleteFailed, ResourceStatusUpdateFailed]
    ∧ PendingEventStatus = [ResourceStatusCreateInProgress,
        ResourceStatusDeleteInProgress, ResourceStatusUpdateInProgress]
    ∧ (∀ s ∈ EventStatusGrid,
        s ∈ PositiveEventStatus ∨ s ∈ NegativeEventStatus ∨ s ∈ PendingEventStatus)
    ∧ (∀ s ∈ PositiveEventStatus, s ∈ EventStatusGrid)
    ∧ (∀ s ∈ NegativeEventStatus, s ∈ EventStatusGrid)
    ∧ (∀ s ∈ PendingEventStatus, s ∈ EventStatusGrid) := by
  decide

/-- Witness for C6 at the concrete status CREATE_COMPLETE. -/
theorem eventStatus_partition_witness :
    ResourceStatusCreateComplete ∉ NegativeEventStatus
    ∧ ResourceStatusCreateComplete ∉ PendingEventStatus :=
  eventStatus_partition.1 ResourceStatusCreateComplete (by decide)

/-- C8: every status in `RollbackStackStatus` is absent from
`PositiveStackStatus` and `NegativeStackStatus` and present in
`PendingStackStatus`, so the termination rule (stop iff the status is in
Positive or Negative) never stops on a rollback-in-progress status alone. -/
theorem rollbackStatus_does_not_terminate (s : StackStatus)
    (h : s ∈ RollbackStackStatus) :
    s ∉ PositiveStackStatus ∧ s ∉ NegativeStackStatus ∧ s ∈ PendingStackStatus
    ∧ terminatesPolling s = false := by
  simp only [RollbackStackStatus, StackStatusRollbackInProgress,
    List.mem_singleton] at h
  subst h
  decide

/-- Witness for C8 at the concrete status ROLLBACK_IN_PROGRESS. -/
theorem rollbackStatus_does_not_terminate_witness :
    StackStatusRollbackInProgress ∉ PositiveStackStatus
    ∧ StackStatusRollbackInProgress ∉ NegativeStackStatus
    ∧ StackStatusRollbackInProgress ∈ PendingStackStatus
    ∧ terminatesPolling StackStatusRollbackInProgress = false :=
  rollbackStatus_does_not_terminate StackStatusRollbackInProgress (by decide)

/-- C9: no converter ever populates `StatusReason`; every row any of the
three conversions produces has an empty `StatusReason`. -/
theorem converters_leave_statusReason_empty :
    (∀ change active row, CreateDisplayRowFromChange change active = some row →
      row.StatusReason = "")
    ∧ (∀ event row, CreateDisplayRowFromEvent event = some row →
      row.StatusReason = "")
    ∧ (∀ resource row, CreateDisplayRowFromResource resource = some row →
      row.StatusReason = "") := by
  refine ⟨fun change active row h => ?_, fun event row h => ?_,
    fun resource row h => ?_⟩
  · unfold CreateDisplayRowFromChange at h
    split at h
    · injection h with h2
      subst h2
      rfl
    · exact Option.noConfusion h
  · unfold CreateDisplayRowFromEvent at h
    split at h
    · injection h with h2
      subst h2
      rfl
    · exact Option.noConfusion h
  · unfold CreateDisplayRowFromResource at h
    split at h
    · injection h with h2
      subst h2
      rfl
    · exact Option.noConfusion h

/-- Witness for C9 at a concrete event. -/
theorem converters_leave_statusReason_empty_witness :
    (DisplayRow.mk "res" "ty" ResourceStatusCreateComplete 3 "" "" ""
      DisplayRowSourceEvent false).StatusReason = "" :=
  converters_leave_statusReason_empty.2.1
    (StackEvent.mk (some "res") (some "ty") ResourceStatusCreateComplete (some 3))
    _ rfl

/-- C7: a row produced by `CreateDisplayRowFromEvent` takes its logical id,
resource type, status and timestamp from the event, carries the Event
provenance tag, and has `Active = false`. -/
theorem CreateDisplayRowFromEvent_fields (event : StackEvent) (row : DisplayRow)
    (h : CreateDisplayRowFromEvent event = some row) :
    event.LogicalResourceId = some row.LogicalResourceID
    ∧ event.ResourceType = some row.ResourceType
    ∧ row.Status = event.ResourceStatus
    ∧ event.Timestamp = some row.Timestamp
    ∧ row.Source = DisplayRowSourceEvent
    ∧ row.Active = false := by
  unfold CreateDisplayRowFromEvent at h
  split at h
  · rename_i lid rtype ts hlid hrtype hts
    injection h with h2
    subst h2
    exact ⟨hlid, hrtype, rfl, hts, rfl, rfl⟩
  · exact Option.noConfusion h

/-- Witness for C7 at a concrete event. -/
theorem CreateDisplayRowFromEvent_fields_witness :
    (StackEvent.mk (some "res") (some "ty") ResourceStatusCreateComplete
        (some 3)).LogicalResourceId
      = some (DisplayRow.mk "res" "ty" ResourceStatusCreateComplete 3 "" "" ""
          DisplayRowSourceEvent false).LogicalResourceID
    ∧ (StackEvent.mk (some "res") (some "ty") ResourceStatusCreateComplete
        (some 3)).ResourceType
      = some (DisplayRow.mk "res" "ty" ResourceStatusCreateComplete 3 "" "" ""
          DisplayRowSourceEvent false).ResourceType
    ∧ (DisplayRow.mk "res" "ty" ResourceStatusCreateComplete 3 "" "" ""
          DisplayRowSourceEvent false).Status
      = (StackEvent.mk (some "res") (some "ty") ResourceStatusCreateComplete
          (some 3)).ResourceStatus
    ∧ (StackEvent.mk (some "res") (some "ty") ResourceStatusCreateComplete
        (some 3)).Timestamp
      = some (DisplayRow.mk "res" "ty" ResourceStatusCreateComplete 3 "" "" ""
          DisplayRowSourceEvent false).Timestamp
    ∧ (DisplayRow.mk "res" "ty" ResourceStatusCreateComplete 3 "" "" ""
          DisplayRowSourceEvent false).Source = DisplayRowSourceEvent
    ∧ (DisplayRow.mk "res" "ty" ResourceStatusCreateComplete 3 "" "" ""
          DisplayRowSourceEvent false).Active = false :=
  CreateDisplayRowFromEvent_fields
    (StackEvent.mk (some "res") (some "ty") ResourceStatusCreateComplete (some 3))
    _ rfl

/-- C3: each converter hits the fatal dereference branch (`none`, modelling
the Go nil-pointer panic) when a required sub-field is missing — it neither
skips the record nor defaults the field — and never hits it when all required
sub-fields are present. -/
theorem converters_require_fields :
    (∀ change active,
      (change.ResourceChange.LogicalResourceId = none
        ∨ change.ResourceChange.ResourceType = none) →
      CreateDisplayRowFromChange change active = none)
    ∧ (∀ event,
      (event.LogicalResourceId = none ∨ event.ResourceType = none
        ∨ event.Timestamp = none) →
      CreateDisplayRowFromEvent event = none)
    ∧ (∀ resource,
      (resource.LogicalResourceId = none ∨ resource.ResourceType = none) →
      CreateDisplayRowFromResource resource = none)
    ∧ (∀ change active, change.ResourceChange.LogicalResourceId.isSome →
      change.ResourceChange.ResourceType.isSome →
      (CreateDisplayRowFromChange change active).isSome)
    ∧ (∀ event, event.LogicalResourceId.isSome → event.ResourceType.isSome →
      event.Timestamp.isSome → (CreateDisplayRowFromEvent event).isSome)
    ∧ (∀ resource, resource.LogicalResourceId.isSome →
      resource.ResourceType.isSome →
      (CreateDisplayRowFromResource resource).isSome) := by
  refine ⟨fun change active h => ?_, fun event h => ?_, fun resource h => ?_,
    fun change active h1 h2 => ?_, fun event h1 h2 h3 => ?_,
    fun resource h1 h2 => ?_⟩
  · obtain ⟨⟨lid, rtype, rep, act⟩⟩ := change
    rcases h with h | h
    · subst h
      simp [CreateDisplayRowFromChange]
    · subst h
      cases lid <;> simp [CreateDisplayRowFromChange]
  · obtain ⟨lid, rtype, status, ts⟩ := event
    rcases h with h | h | h
    · subst h
      simp [CreateDisplayRowFromEvent]
    · subst h
      cases lid <;> simp [CreateDisplayRowFromEvent]
    · subst h
      cases lid <;> cases rtype <;> simp [CreateDisplayRowFromEvent]
  · obtain ⟨lid, rtype⟩ := resource
    rcases h with h | h
    · subst h
      simp [CreateDisplayRowFromResource]
    · subst h
      cases lid <;> simp [CreateDisplayRowFromResource]
  · obtain ⟨⟨lid, rtype, rep, act⟩⟩ := change
    cases lid <;> cases rtype <;> simp_all [CreateDisplayRowFromChange]
  · obtain ⟨lid, rtype, status, ts⟩ := event
    cases lid <;> cases rtype <;> cases ts <;>
      simp_all [CreateDisplayRowFromEvent]
  · obtain ⟨lid, rtype⟩ := resource
    cases lid <;> cases rtype <;> simp_all [CreateDisplayRowFromResource]

/-- Witness for C3: an event missing its timestamp is rejected, and a
complete change converts successfully. -/
theorem converters_require_fields_witness :
    CreateDisplayRowFromEvent
      (StackEvent.mk (some "res") (some "ty") ResourceStatusCreateFailed none)
      = none
    ∧ (CreateDisplayRowFromChange
        (Change.mk (ResourceChange.mk (some "res") (some "ty")
          "True" ChangeActionAdd)) true).isSome :=
  ⟨converters_require_fields.2.1
      (StackEvent.mk (some "res") (some "ty") ResourceStatusCreateFailed none)
      (Or.inr (Or.inr rfl)),
   converters_require_fields.2.2.2.1
      (Change.mk (ResourceChange.mk (some "res") (some "ty")
        "True" ChangeActionAdd)) true rfl rfl⟩

theorem getResourcesLoop_pages (pages : List (List StackResourceSummary))
    (rest : List PaginatorStep) (acc : List StackResourceSummary) :
    getResourcesLoop
        (pages.map PaginatorStep.page ++ PaginatorStep.fetchFailure :: rest) acc
      = acc ++ pages.flatten
    ∧ getResourcesLoop (pages.map PaginatorStep.page) acc
      = acc ++ pages.flatten := by
  induction pages generalizing acc with
  | nil => simp [getResourcesLoop]
  | cons p ps ih =>
    refine ⟨?_, ?_⟩
    · show getResourcesLoop
          (ps.map PaginatorStep.page ++ PaginatorStep.fetchFailure :: rest)
          (acc ++ p) = acc ++ (p :: ps).flatten
      rw [(ih (acc ++ p)).1, List.flatten_cons, List.append_assoc]
    · show getResourcesLoop (ps.map PaginatorStep.page) (acc ++ p)
          = acc ++ (p :: ps).flatten
      rw [(ih (acc ++ p)).2, List.flatten_cons, List.append_assoc]

theorem getResourcesFromPaginatorSpec_failure
    (pages : List (List StackResourceSummary)) (rest : List PaginatorStep) :
    GetResourcesFromPaginatorSpec
        (pages.map PaginatorStep.page ++ PaginatorStep.fetchFailure :: rest)
      = none := by
  induction pages with
  | nil => rfl
  | cons p ps ih =>
    simp [GetResourcesFromPaginatorSpec, ih]

/-- C1 counterexample: on a cursor whose second advance fails, the collector
returns the partial accumulation of the first page as an ordinary result,
indistinguishable from a successful run over the first page alone, while the
spec-level reference behavior propagates the error. -/
theorem GetResourcesFromPaginator_swallows_failure :
    GetResourcesFromPaginator
        [PaginatorStep.page [StackResourceSummary.mk (some "r1") (some "ty")],
         PaginatorStep.fetchFailure]
      = [StackResourceSummary.mk (some "r1") (some "ty")]
    ∧ GetResourcesFromPaginator
        [PaginatorStep.page [StackResourceSummary.mk (some "r1") (some "ty")],
         PaginatorStep.fetchFailure]
      = GetResourcesFromPaginator
          [PaginatorStep.page [StackResourceSummary.mk (some "r1") (some "ty")]]
    ∧ GetResourcesFromPaginatorSpec
        [PaginatorStep.page [StackResourceSummary.mk (some "r1") (some "ty")],
         PaginatorStep.fetchFailure]
      = none :=
  ⟨rfl, rfl, rfl⟩

/-- C1 amended: `GetResourcesFromPaginator` performs no retry; on a fetch
error it stops advancing and returns the pages accumulated so far as an
ordinary result (its type has no error output), while the spec-level
reference behavior would propagate the error. -/
theorem GetResourcesFromPaginator_amended
    (pages : List (List StackResourceSummary)) (rest : List PaginatorStep) :
    GetResourcesFromPaginator
        (pages.map PaginatorStep.page ++ PaginatorStep.fetchFailure :: rest)
      = pages.flatten
    ∧ GetResourcesFromPaginator (pages.map PaginatorStep.page) = pages.flatten
    ∧ GetResourcesFromPaginatorSpec
        (pages.map PaginatorStep.page ++ PaginatorStep.fetchFailure :: rest)
      = none := by
  refine ⟨?_, ?_, getResourcesFromPaginatorSpec_failure pages rest⟩
  · exact (getResourcesLoop_pages pages rest []).1
  · exact (getResourcesLoop_pages pages rest []).2

/-- C2: a missing tag/parameter file yields an empty sequence and no error,
and a file with malformed JSON yields an error whose message is the
user-facing description plus a documentation link, not a raw parse error. -/
theorem loaders_contract :
    (∀ (fs : String → Except ReadError (JSONBytes (List Tag))) location,
      fs location = Except.error ReadError.notExist →
      GetTags fs location = Except.ok [])
    ∧ (∀ (fs : String → Except ReadError (JSONBytes (List Parameter))) location,
      fs location = Except.error ReadError.notExist →
      GetParameters fs location = Except.ok [])
    ∧ (∀ (fs : String → Except ReadError (JSONBytes (List Tag))) location,
      fs location = Except.ok JSONBytes.invalid →
      GetTags fs location = Except.error tagsErrorMessage)
    ∧ (∀ (fs : String → Except ReadError (JSONBytes (List Parameter))) location,
      fs location = Except.ok JSONBytes.invalid →
      GetParameters fs location = Except.error parametersErrorMessage)
    ∧ tagsErrorMessage
      = "Unable to load tags. tags must be valid JSON and only of type string"
        ++ " \n " ++ tagsDocsMessage
    ∧ parametersErrorMessage
      = "Unable to load parameters. Parameters must be valid JSON and only of type string"
        ++ " \n " ++ parametersDocsMessage := by
  refine ⟨fun fs location h => ?_, fun fs location h => ?_,
    fun fs location h => ?_, fun fs location h => ?_, rfl, rfl⟩ <;>
    simp [GetTags, GetParameters, h, jsonUnmarshal]

/-- Witness for C2: a missing tags file and a malformed parameters file. -/
theorem loaders_contract_witness :
    GetTags (fun _ => Except.error ReadError.notExist) "tags.json"
      = Except.ok []
    ∧ GetParameters (fun _ => Except.ok JSONBytes.invalid) "params.json"
      = Except.error parametersErrorMessage :=
  ⟨loaders_contract.1 _ "tags.json" rfl,
   loaders_contract.2.2.2.1 _ "params.json" rfl⟩

/-- C10: every read failure, not only a missing file, makes `GetTags` and
`GetParameters` return an empty sequence with no error. -/
theorem loaders_empty_on_any_read_failure
    (fsT : String → Except ReadError (JSONBytes (List Tag)))
    (fsP : String → Except ReadError (JSONBytes (List Parameter)))
    (location : String) (e : ReadError)
    (hT : fsT location = Except.error e) (hP : fsP location = Except.error e) :
    GetTags fsT location = Except.ok []
    ∧ GetParameters fsP location = Except.ok [] := by
  constructor
  · simp [GetTags, hT]
  · simp [GetParameters, hP]

/-- Witness for C10 at a permission-denied read failure. -/
theorem loaders_empty_on_any_read_failure_witness :
    GetTags (fun _ => Except.error ReadError.permissionDenied) "cfg.json"
      = Except.ok []
    ∧ GetParameters (fun _ => Except.error ReadError.permissionDenied) "cfg.json"
      = Except.ok [] :=
  loaders_empty_on_any_read_failure
    (fun _ => Except.error ReadError.permissionDenied)
    (fun _ => Except.error ReadError.permissionDenied)
    "cfg.json" ReadError.permissionDenied rfl rfl

/-- C4: `ActivateDisplayRows` builds a fresh map with the same key set whose
rows all have `Active = true` and otherwise agree with the input rows, and the
input map still holds its original rows afterwards. -/
theorem ActivateDisplayRows_spec (m : GoMap DisplayRow)
    (h : (m.map Prod.fst).Nodup) :
    (∀ k, (goMapFind (ActivateDisplayRows m) k).isSome ↔ (goMapFind m k).isSome)
    ∧ (∀ k row, goMapFind m k = some row →
        goMapFind (ActivateDisplayRows m) k = some { row with Active := true }
        ∧ goMapFind m k = some row)
    ∧ (∀ k row, goMapFind (ActivateDisplayRows m) k = some row →
        row.Active = true) := by
  have key : ∀ k, goMapFind (ActivateDisplayRows m) k
      = match goMapFind m k with
        | some r => some { r with Active := true }
        | none => none := fun k => activateDisplayRowsLoop_find m [] k h
  refine ⟨fun k => ?_, fun k row hrow => ?_, fun k row hrow => ?_⟩
  · rw [key k]
    rcases goMapFind m k with _ | r <;> simp
  · exact ⟨by rw [key k, hrow], hrow⟩
  · rw [key k] at hrow
    rcases hfind : goMapFind m k with _ | r <;> rw [hfind] at hrow
    · exact Option.noConfusion hrow
    · injection hrow with h2
      subst h2
      rfl

/-- Witness for C4 at a one-entry map. -/
theorem ActivateDisplayRows_spec_witness :
    goMapFind
        (ActivateDisplayRows [("a", DisplayRow.mk "a" "t" "" 0 "" "" "" "" false)])
        "a"
      = some { DisplayRow.mk "a" "t" "" 0 "" "" "" "" false with Active := true }
    ∧ goMapFind [("a", DisplayRow.mk "a" "t" "" 0 "" "" "" "" false)] "a"
      = some (DisplayRow.mk "a" "t" "" 0 "" "" "" "" false) :=
  (ActivateDisplayRows_spec
      [("a", DisplayRow.mk "a" "t" "" 0 "" "" "" "" false)]
      (by decide)).2.1 "a" (DisplayRow.mk "a" "t" "" 0 "" "" "" "" false) rfl

/-- C5: the maps built by `ChangeMap`, `EventMap` and `ResourceMap` have
exactly the input's logical ids as keys, and a duplicated id maps to the
conversion of its last occurrence in input order. -/
theorem maps_key_set_lastWriteWins :
    (∀ (changes : List Change) (active : Bool) (m : GoMap DisplayRow),
      ChangeMap changes active = some m →
      (∀ k, (goMapFind m k).isSome
        ↔ some k ∈ changes.map (fun c => c.ResourceChange.LogicalResourceId))
      ∧ (∀ k, goMapFind m k =
          match changes.reverse.find?
              (fun c => decide (c.ResourceChange.LogicalResourceId = some k)) with
          | some c => CreateDisplayRowFromChange c active
          | none => none))
    ∧ (∀ (events : List StackEvent) (m : GoMap DisplayRow),
      EventMap events = some m →
      (∀ k, (goMapFind m k).isSome
        ↔ some k ∈ events.map (fun e => e.LogicalResourceId))
      ∧ (∀ k, goMapFind m k =
          match events.reverse.find?
              (fun e => decide (e.LogicalResourceId = some k)) with
          | some e => CreateDisplayRowFromEvent e
          | none => none))
    ∧ (∀ (resources : List StackResourceSummary) (m : GoMap DisplayRow),
      ResourceMap resources = some m →
      (∀ k, (goMapFind m k).isSome
        ↔ some k ∈ resources.map (fun r => r.LogicalResourceId))
      ∧ (∀ k, goMapFind m k =
          match resources.reverse.find?
              (fun r => decide (r.LogicalResourceId = some k)) with
          | some r => CreateDisplayRowFromResource r
          | none => none)) := by
  refine ⟨fun changes active m h => ?_, fun events m h => ?_,
    fun resources m h => ?_⟩
  · have heq : ∀ k, goMapFind m k =
        match changes.reverse.find?
            (fun c => decide (c.ResourceChange.LogicalResourceId = some k)) with
        | some c => CreateDisplayRowFromChange c active
        | none => none := by
      intro k
      rw [changeMapLoop_find active changes [] m h k]
      rcases hf : List.find?
          (fun c => decide (c.ResourceChange.LogicalResourceId = some k))
          changes.reverse with _ | c <;> (rw [hf]; try rfl)
    refine ⟨fun k => ?_, heq⟩
    constructor
    · intro hs
      rw [heq k] at hs
      rcases hf : List.find?
          (fun c => decide (c.ResourceChange.LogicalResourceId = some k))
          changes.reverse with _ | c
      · rw [hf] at hs
        simp at hs
      · have hc : c ∈ changes := List.mem_reverse.mp (List.mem_of_find?_eq_some hf)
        have hp := List.find?_some hf
        have hid : c.ResourceChange.LogicalResourceId = some k :=
          of_decide_eq_true hp
        exact List.mem_map.mpr ⟨c, hc, hid⟩
    · intro hk
      rcases List.mem_map.mp hk with ⟨c, hc, hid⟩
      have hsome : (List.find?
          (fun c => decide (c.ResourceChange.LogicalResourceId = some k))
          changes.reverse).isSome :=
        List.find?_isSome.mpr ⟨c, List.mem_reverse.mpr hc, decide_eq_true hid⟩
      rcases hf : List.find?
          (fun c => decide (c.ResourceChange.LogicalResourceId = some k))
          changes.reverse with _ | c2
      · rw [hf] at hsome
        simp at hsome
      · rw [heq k, hf]
        exact changeMapLoop_conv_isSome active changes [] m h c2
          (List.mem_reverse.mp (List.mem_of_find?_eq_some hf))
  · have heq : ∀ k, goMapFind m k =
        match events.reverse.find?
            (fun e => decide (e.LogicalResourceId = some k)) with
        | some e => CreateDisplayRowFromEvent e
        | none => none := by
      intro k
      rw [eventMapLoop_find events [] m h k]
      rcases hf : List.find? (fun e => decide (e.LogicalResourceId = some k))
          events.reverse with _ | e <;> (rw [hf]; try rfl)
    refine ⟨fun k => ?_, heq⟩
    constructor
    · intro hs
      rw [heq k] at hs
      rcases hf : List.find? (fun e => decide (e.LogicalResourceId = some k))
          events.reverse with _ | e
      · rw [hf] at hs
        simp at hs
      · have he : e ∈ events := List.mem_reverse.mp (List.mem_of_find?_eq_some hf)
        have hp := List.find?_some hf
        have hid : e.LogicalResourceId = some k :=
          of_decide_eq_true hp
        exact List.mem_map.mpr ⟨e, he, hid⟩
    · intro hk
      rcases List.mem_map.mp hk with ⟨e, he, hid⟩
      have hsome : (List.find? (fun e => decide (e.LogicalResourceId = some k))
          events.reverse).isSome :=
        List.find?_isSome.mpr ⟨e, List.mem_reverse.mpr he, decide_eq_true hid⟩
      rcases hf : List.find? (fun e => decide (e.LogicalResourceId = some k))
          events.reverse with _ | e2
      · rw [hf] at hsome
        simp at hsome
      · rw [heq k, hf]
        exact eventMapLoop_conv_isSome events [] m h e2
          (List.mem_reverse.mp (List.mem_of_find?_eq_some hf))
  · have heq : ∀ k, goMapFind m k =
        match resources.reverse.find?
            (fun r => decide (r.LogicalResourceId = some k)) with
        | some r => CreateDisplayRowFromResource r
        | none => none := by
      intro k
      rw [resourceMapLoop_find resources [] m h k]
      rcases hf : List.find? (fun r => decide (r.LogicalResourceId = some k))
          resources.reverse with _ | r <;> (rw [hf]; try rfl)
    refine ⟨fun k => ?_, heq⟩
    constructor
    · intro hs
      rw [heq k] at hs
      rcases hf : List.find? (fun r => decide (r.LogicalResourceId = some k))
          resources.reverse with _ | r
      · rw [hf] at hs
        simp at hs
      · have hr : r ∈ resources :=
          List.mem_reverse.mp (List.mem_of_find?_eq_some hf)
        have hp := List.find?_some hf
        have hid : r.LogicalResourceId = some k :=
          of_decide_eq_true hp
        exact List.mem_map.mpr ⟨r, hr, hid⟩
    · intro hk
      rcases List.mem_map.mp hk with ⟨r, hr, hid⟩
      have hsome : (List.find? (fun r => decide (r.LogicalResourceId = some k))
          resources.reverse).isSome :=
        List.find?_isSome.mpr ⟨r, List.mem_reverse.mpr hr, decide_eq_true hid⟩
      rcases hf : List.find? (fun r => decide (r.LogicalResourceId = some k))
          resources.reverse with _ | r2
      · rw [hf] at hsome
        simp at hsome
      · rw [heq k, hf]
        exact resourceMapLoop_conv_isSome resources [] m h r2
          (List.mem_reverse.mp (List.mem_of_find?_eq_some hf))

/-- Witness for C5: two changes share the id "A"; the map holds the
conversion of the later one. -/
theorem maps_key_set_lastWriteWins_witness :
    goMapFind
        [("A", DisplayRow.mk "A" "T2" "" 0 "" "" ChangeActionRemove
          DisplayRowSourceChangeSet true)] "A"
      = some (DisplayRow.mk "A" "T2" "" 0 "" "" ChangeActionRemove
          DisplayRowSourceChangeSet true) :=
  (maps_key_set_lastWriteWins.1
      [Change.mk (ResourceChange.mk (some "A") (some "T1") "" ChangeActionAdd),
       Change.mk (ResourceChange.mk (some "A") (some "T2") "" ChangeActionRemove)]
      true
      [("A", DisplayRow.mk "A" "T2" "" 0 "" "" ChangeActionRemove
        DisplayRowSourceChangeSet true)]
      rfl).2 "A"

end Cirrus
